import Mathlib

/-!
Verification of the emotion-bench repository: a shallow embedding of its
pure logic (emotion-tag detection, catalog loading, cost estimation,
result collection and summarisation, and the per-test-case driver),
together with theorems settling the specification claims.

Conventions of the embedding:
* Python strings are Lean `String`s; character-level scanning works on
  `List Char`.
* Python's `str.lower` is modelled by `Char.toLower` on each character,
  and the regex word-character class `\w` by ASCII alphanumerics plus
  underscore (`isWordChar`).
* Python floats are modelled by `ℚ` (exact arithmetic) except for the
  confidence-interval margins, which involve `sqrt` and are modelled
  over `ℝ`.
* A Python function that can raise is modelled with `Option`/`Except`:
  `none`/`.error` is the raised exception.
-/

namespace EmotionBench

/-! ## Analyzer (`emotion_bench/analyzer.py`)

`contains_emotion_tag(transcription, emotion)` lowercases both strings,
returns `False` for an empty transcription, and otherwise checks
(1) literal substring `"(" + emotion + ")"`, then
(2) the regex `\b re.escape(emotion) \b`.  `re.escape` makes the emotion
a literal; `\b` asserts a word/non-word transition, which depends on the
characters adjacent to the match. -/

/-- Model of the regex `\w` class (ASCII): letters, digits, underscore. -/
def isWordChar (c : Char) : Bool := c.isAlphanum || c = '_'

/-- Lowercase every character (model of Python `str.lower`). -/
def lowerList (l : List Char) : List Char := l.map Char.toLower

/-- Is the character at index `i` a word character?  Out-of-range
positions count as non-word (as at the ends of the subject string). -/
def wordAt (tl : List Char) (i : ℕ) : Bool :=
  match tl[i]? with
  | some c => isWordChar c
  | none => false

/-- Does the regex boundary assertion `\b` hold between positions `i-1`
and `i`?  It holds exactly when the two sides differ in word-ness, with
out-of-range treated as non-word. -/
def boundaryAt (tl : List Char) (i : ℕ) : Bool :=
  (if i = 0 then false else wordAt tl (i - 1)) != wordAt tl i

/-- Does the literal pattern `el` occur in `tl` starting at index `i`? -/
def matchesAt (tl el : List Char) (i : ℕ) : Bool :=
  decide ((tl.drop i).take el.length = el)

/-- Python's substring operator `pat in tl`. -/
def containsSub (tl pat : List Char) : Bool :=
  (List.range (tl.length + 1)).any fun i => matchesAt tl pat i

/-- `re.search(r"\b" + re.escape(el) + r"\b", tl)`: some start position
carries a literal occurrence of `el` flanked by `\b` assertions. -/
def regexWordSearch (el tl : List Char) : Bool :=
  (List.range (tl.length + 1)).any fun i =>
    matchesAt tl el i && boundaryAt tl i && boundaryAt tl (i + el.length)

/-- `contains_emotion_tag` from `emotion_bench/analyzer.py`. -/
def contains_emotion_tag (transcription emotion : String) : Bool :=
  let t := transcription.toList
  if t.isEmpty then false
  else
    let tl := lowerList t
    let el := lowerList emotion.toList
    if containsSub tl ('(' :: el ++ [')']) then true
    else if regexWordSearch el tl then true
    else false

/-- The spec's description of a whole-word occurrence: `el` occurs at
some position whose left neighbour is the string start or a non-word
character, and whose right neighbour is the string end or a non-word
character. -/
def specWholeWord (el tl : List Char) : Bool :=
  (List.range (tl.length + 1)).any fun i =>
    matchesAt tl el i &&
    (decide (i = 0) || !wordAt tl (i - 1)) &&
    (decide (i + el.length = tl.length) || !wordAt tl (i + el.length))

/-- The detector as the spec words it (refinement reference): false on
empty transcription, else case-insensitive parenthesized-substring or
whole-word occurrence bounded by non-word characters. -/
def spec_contains_emotion_tag (transcription emotion : String) : Bool :=
  let t := transcription.toList
  let tl := lowerList t
  let el := lowerList emotion.toList
  !t.isEmpty && (containsSub tl ('(' :: el ++ [')']) || specWholeWord el tl)

/-- The emotion's lowered text is non-empty and starts and ends with a
word character (the regime in which `\b` coincides with the spec's
description). -/
def wordEdged (el : List Char) : Bool :=
  !el.isEmpty && wordAt el 0 && wordAt el (el.length - 1)

/-! ## Emotion catalog loading (`emotion_bench/emotions.py`)

`_load_emotions` parses `emotions.yaml` and merges the five category
mappings into `all_emotions` (tag ↦ phrase list) while recording each
tag's category.  File reading and YAML parsing are I/O and are not
embedded; the pure core below takes the parsed data.  Python `dict`s are
modelled as insertion-ordered association lists with unique keys. -/

/-- The five category keys `_load_emotions` reads, in order. -/
def categoryNames : List String :=
  ["basic_emotions", "advanced_emotions", "tone_and_special_markers",
   "unofficial_emotions", "unofficial_markers"]

/-- Python `m.get(k, d)` on an association-list dict. -/
def pyGet {α : Type} (m : List (String × α)) (k : String) (d : α) : α :=
  ((m.find? fun p => p.1 == k).map Prod.snd).getD d

/-- Python `m[k] = v`: replace in place if the key is present (keeping
its position), else append. -/
def dictInsert {α : Type} (m : List (String × α)) (k : String) (v : α) :
    List (String × α) :=
  if m.any fun p => p.1 == k then
    m.map fun p => if p.1 == k then (k, v) else p
  else m ++ [(k, v)]

/-- Python `m.update(new)`: insert each of `new`'s entries in order. -/
def dictUpdate {α : Type} (m new : List (String × α)) :
    List (String × α) :=
  new.foldl (fun acc p => dictInsert acc p.1 p.2) m

/-- The keys of an association-list dict, in insertion order. -/
def dictKeys {α : Type} (m : List (String × α)) : List String :=
  m.map Prod.fst

/-- Parsed YAML catalog: category name ↦ (tag ↦ phrase list). -/
abbrev Catalog := List (String × List (String × List String))

/-- Pure core of `_load_emotions`: for each recognized category (in
order) merge its tag ↦ phrases entries into `all_emotions` and record
the tag's category.  There is no validation of any kind. -/
def _load_emotions (data : Catalog) :
    List (String × List String) × List (String × String) :=
  categoryNames.foldl
    (fun acc name =>
      let categoryData := pyGet data name []
      (dictUpdate acc.1 categoryData,
       categoryData.foldl (fun m p => dictInsert m p.1 name) acc.2))
    ([], [])

/-! ## Benchmark results (`tests/benchmark_results.py`)

`BenchmarkCollector` keeps a list of `BenchmarkResult`s; `add_result`
appends one (no validation).  `get_summary` returns `{}` on an empty
list and otherwise counts statuses, derives per-emotion success rates
(keyed by first-seen emotion order), and ranks best/worst 5.  The inner
tally `emotion_stats[emotion][status.lower()] += 1` raises `KeyError`
when the lowered status is not one of `pass`/`fail`/`error`; an
`Option`-valued fold models that.  Python `float`s are modelled by `ℚ`
and `round(x, 2)` by round-half-to-even at two decimals. -/

/-- One row of `BenchmarkResult` (a Python dataclass). -/
structure BenchmarkResult where
  emotion : String
  voice : String
  phrase_idx : ℕ
  phrase : String
  run_number : ℕ
  category : String
  status : String
  transcription : Option String
  error : Option String
deriving DecidableEq, Repr

/-- `BenchmarkCollector.add_result`: append a result, unconditionally. -/
def add_result (results : List BenchmarkResult) (emotion voice : String)
    (phrase_idx : ℕ) (phrase : String) (run_number : ℕ)
    (category status : String) (transcription error : Option String) :
    List BenchmarkResult :=
  results ++ [⟨emotion, voice, phrase_idx, phrase, run_number, category,
    status, transcription, error⟩]

/-- Python `str.lower` on a whole string. -/
def pyLower (s : String) : String := ⟨lowerList s.data⟩

/-- The inner per-emotion dict `{"pass": 0, "fail": 0, "error": 0}`. -/
structure StatusCounts where
  pass : ℕ
  fail : ℕ
  error : ℕ
deriving DecidableEq, Repr

/-- Increment the counter at `key` (the lowered status); identity on an
unknown key (the caller guards the key). -/
def bumpCount (c : StatusCounts) (key : String) : StatusCounts :=
  if key = "pass" then { c with pass := c.pass + 1 }
  else if key = "fail" then { c with fail := c.fail + 1 }
  else if key = "error" then { c with error := c.error + 1 }
  else c

/-- One iteration of the tally loop in `get_summary`: ensure the
emotion's entry exists, then `+= 1` at `status.lower()`.  `none` models
the `KeyError` raised when the lowered status is not one of the three
initialised keys. -/
def tallyStep (stats : List (String × StatusCounts))
    (r : BenchmarkResult) : Option (List (String × StatusCounts)) :=
  let stats' := if stats.any fun p => p.1 == r.emotion then stats
                else stats ++ [(r.emotion, ⟨0, 0, 0⟩)]
  let key := pyLower r.status
  if key = "pass" ∨ key = "fail" ∨ key = "error" then
    some (stats'.map fun p =>
      if p.1 == r.emotion then (p.1, bumpCount p.2 key) else p)
  else none

/-- The `emotion_stats` dict built inside `get_summary`. -/
def emotion_stats (results : List BenchmarkResult) :
    Option (List (String × StatusCounts)) :=
  results.foldlM tallyStep []

/-- Success rate from one emotion's tally counts:
`pass / (pass + fail + error) * 100` (0 when the total is 0). -/
def rateFromCounts (c : StatusCounts) : ℚ :=
  let total : ℕ := c.pass + c.fail + c.error
  if total > 0 then (c.pass : ℚ) / (total : ℚ) * 100 else 0

/-- Per-emotion success rates derived from the tally. -/
def ratesOf (stats : List (String × StatusCounts)) :
    List (String × ℚ) :=
  stats.map fun p => (p.1, rateFromCounts p.2)

/-- The `emotion_success_rates` dict inside `get_summary` (`none` models
the `KeyError` from the tally). -/
def emotion_success_rates (results : List BenchmarkResult) :
    Option (List (String × ℚ)) :=
  (emotion_stats results).map ratesOf

/-- Stable descending insertion by rate: Python
`sorted(items, key=rate, reverse=True)` (equal keys keep their original
relative order). -/
def insertDescRate (x : String × ℚ) :
    List (String × ℚ) → List (String × ℚ)
  | [] => [x]
  | y :: ys => if y.2 > x.2 then y :: insertDescRate x ys else x :: y :: ys

/-- Stable descending sort by rate. -/
def sortDescRates (l : List (String × ℚ)) : List (String × ℚ) :=
  l.foldr insertDescRate []

/-- Stable ascending insertion by rate: Python
`sorted(items, key=rate)`. -/
def insertAscRate (x : String × ℚ) :
    List (String × ℚ) → List (String × ℚ)
  | [] => [x]
  | y :: ys => if y.2 < x.2 then y :: insertAscRate x ys else x :: y :: ys

/-- Stable ascending sort by rate. -/
def sortAscRates (l : List (String × ℚ)) : List (String × ℚ) :=
  l.foldr insertAscRate []

/-- Round a rational to the nearest integer, ties to even (the rounding
of Python's `round`). -/
def roundHalfEven (q : ℚ) : ℤ :=
  let f := ⌊q⌋
  let r := q - f
  if r < 1 / 2 then f
  else if 1 / 2 < r then f + 1
  else if f % 2 = 0 then f else f + 1

/-- Python `round(q, d)`. -/
def pyRoundTo (d : ℕ) (q : ℚ) : ℚ :=
  (roundHalfEven (q * 10 ^ d) : ℚ) / 10 ^ d

/-- Python `round(q, 2)` as used on the reported rates. -/
def pyRound2 (q : ℚ) : ℚ := pyRoundTo 2 q

/-- The summary dict returned by `get_summary` on a non-empty list. -/
structure Summary where
  total_tests : ℕ
  pass_count : ℕ
  fail_count : ℕ
  error_count : ℕ
  success_rate : ℚ
  best_emotions : List (String × ℚ)
  worst_emotions : List (String × ℚ)
deriving DecidableEq, Repr

/-- `BenchmarkCollector.get_summary`.  Outer `none` models the
`KeyError` raised by the tally on an unexpected status; the inner
`none` models the empty dict `{}` returned for an empty result list. -/
def get_summary (results : List BenchmarkResult) :
    Option (Option Summary) :=
  if results.isEmpty then some none
  else
    let total_tests := results.length
    let pass_count := results.countP fun r => r.status == "PASS"
    let fail_count := results.countP fun r => r.status == "FAIL"
    let error_count := results.countP fun r => r.status == "ERROR"
    let success_rate : ℚ :=
      if total_tests > 0 then (pass_count : ℚ) / total_tests * 100 else 0
    (emotion_stats results).map fun stats =>
      let rates := ratesOf stats
      let best := (sortDescRates rates).take 5
      let worst := (sortAscRates rates).take 5
      some
        { total_tests := total_tests
          pass_count := pass_count
          fail_count := fail_count
          error_count := error_count
          success_rate := pyRound2 success_rate
          best_emotions := best.map fun p => (p.1, pyRound2 p.2)
          worst_emotions := worst.map fun p => (p.1, pyRound2 p.2) }

/-- The JSON document written by `BenchmarkCollector.save_results`:
the serialised results (all nine fields) plus the summary (`none` is
the empty dict). -/
structure JsonReport where
  results : List BenchmarkResult
  summary : Option Summary
deriving DecidableEq, Repr

/-- `BenchmarkCollector.save_results`: always writes a report, even for
zero results (`none` models the `KeyError` propagating out of
`get_summary`). -/
def save_results (results : List BenchmarkResult) : Option JsonReport :=
  (get_summary results).map fun s => ⟨results, s⟩

/-- Grouping of results by emotion, insertion-ordered, used by the
markdown writer. -/
def groupByEmotion (results : List BenchmarkResult) :
    List (String × List BenchmarkResult) :=
  results.foldl
    (fun acc r =>
      if acc.any fun p => p.1 == r.emotion then
        acc.map fun p => if p.1 == r.emotion then (p.1, p.2 ++ [r]) else p
      else acc ++ [(r.emotion, [r])])
    []

/-- Stable ascending insertion by emotion name (Python
`sorted(emotion_groups.items())`). -/
def insertByName (x : String × List BenchmarkResult) :
    List (String × List BenchmarkResult) →
      List (String × List BenchmarkResult)
  | [] => [x]
  | y :: ys => if y.1 < x.1 then y :: insertByName x ys else x :: y :: ys

/-- Sort the grouped results by emotion name. -/
def sortGroupsByName (l : List (String × List BenchmarkResult)) :
    List (String × List BenchmarkResult) :=
  l.foldr insertByName []

/-- One row of the markdown per-emotion table: emotion, category and
voice of the group's first result, success rate as displayed (rounded
to one decimal by the `%.1f` format), and the four counts. -/
structure EmotionRow where
  emotion : String
  category : String
  voice : String
  rate : ℚ
  pass : ℕ
  fail : ℕ
  error : ℕ
  total : ℕ
deriving DecidableEq, Repr

/-- Build one per-emotion markdown row from a group. -/
def emotionRowOf (e : String) (rs : List BenchmarkResult) : EmotionRow :=
  let pass_count := rs.countP fun r => r.status == "PASS"
  let fail_count := rs.countP fun r => r.status == "FAIL"
  let error_count := rs.countP fun r => r.status == "ERROR"
  let total := rs.length
  let rate : ℚ :=
    if total > 0 then (pass_count : ℚ) / total * 100 else 0
  { emotion := e
    category := ((rs.head?).map fun r => r.category).getD ""
    voice := ((rs.head?).map fun r => r.voice).getD ""
    rate := pyRoundTo 1 rate
    pass := pass_count
    fail := fail_count
    error := error_count
    total := total }

/-- Stable descending insertion of rows by displayed rate (Python
`emotion_table.sort(key=..., reverse=True)`). -/
def insertRowDesc (x : EmotionRow) : List EmotionRow → List EmotionRow
  | [] => [x]
  | y :: ys => if y.rate > x.rate then y :: insertRowDesc x ys
               else x :: y :: ys

/-- Stable descending sort of the per-emotion rows. -/
def sortRowsDesc (l : List EmotionRow) : List EmotionRow :=
  l.foldr insertRowDesc []

/-- The data content of the markdown summary file (string rendering by
`tabulate` is presentation and is not modelled). -/
structure MarkdownSummary where
  summary : Summary
  emotionTable : List EmotionRow
deriving DecidableEq, Repr

/-- `BenchmarkCollector.save_markdown_summary`: returns without writing
anything when there are no results (`some none`); otherwise writes the
summary and per-emotion table (`some (some m)`).  Outer `none` models a
`KeyError` escaping `get_summary`. -/
def save_markdown_summary (results : List BenchmarkResult) :
    Option (Option MarkdownSummary) :=
  if results.isEmpty then some none
  else
    match get_summary results with
    | none => none
    | some none => none
    | some (some s) =>
      let table := (sortGroupsByName (groupByEmotion results)).map
        fun p => emotionRowOf p.1 p.2
      some (some ⟨s, sortRowsDesc table⟩)

/-! ## Worker result forwarding (`tests/conftest.py`)

At `pytest_sessionfinish` a worker serialises its collector's results
into `workeroutput["benchmark_results"]` as dicts with the keys
`emotion`, `voice`, `phrase_idx`, `phrase`, `run_number`, `status`,
`transcription`, `error` — the `category` field is omitted.  On the
controller, `pytest_testnodedown` loops over those dicts and calls
`aggregated_collector.add_result(...)` passing exactly those eight
keyword arguments; `add_result` requires a ninth, `category`, so the
first iteration raises `TypeError`. -/

/-- One serialised worker result (the dict built in
`pytest_sessionfinish`); it has no `category` key. -/
structure WorkerResultPayload where
  emotion : String
  voice : String
  phrase_idx : ℕ
  phrase : String
  run_number : ℕ
  status : String
  transcription : Option String
  error : Option String
deriving DecidableEq, Repr

/-- The worker-side serialisation of one result (`category` dropped). -/
def workerSerializeResult (r : BenchmarkResult) : WorkerResultPayload :=
  ⟨r.emotion, r.voice, r.phrase_idx, r.phrase, r.run_number, r.status,
    r.transcription, r.error⟩

/-- `pytest_testnodedown` merging a worker's payload into the central
collector.  The loop body calls `add_result` without the required
`category` argument, so with a non-empty payload the first iteration
raises `TypeError` (`none`); with an empty payload the loop body never
runs. -/
def pytest_testnodedown (aggregated : List BenchmarkResult)
    (workerResults : List WorkerResultPayload) :
    Option (List BenchmarkResult) :=
  match workerResults with
  | [] => some aggregated
  | _ :: _ => none

/-! ## Test driver (`tests/test_emotions.py`)

For each run, `test_emotion_benchmark` starts from
`status = "PASS"`, `error = None`, `transcription = None`, runs TTS,
writes the audio file, runs STT, and checks the transcription with
`contains_emotion_tag`; any exception in those steps sets
`status = "ERROR"` with the message.  A detected tag sets
`status = "FAIL"` and `error = "Tag leaked: '<transcription>'"`. -/

/-- Outcome of the adapter calls for one run: either some step before
the transcription was assigned raised (TTS, audio file write, or STT),
or STT returned a transcription. -/
inductive RunOutcome where
  | raised (msg : String)
  | transcribed (text : String)
deriving DecidableEq, Repr

/-- The status/transcription/error triple the driver passes to
`add_result` for one run. -/
structure RunRecord where
  status : String
  transcription : Option String
  error : Option String
deriving DecidableEq, Repr

/-- The body of one run of `test_emotion_benchmark`. -/
def run_one (emotion : String) (o : RunOutcome) : RunRecord :=
  match o with
  | .raised msg => ⟨"ERROR", none, some msg⟩
  | .transcribed t =>
    if contains_emotion_tag t emotion then
      ⟨"FAIL", some t, some ("Tag leaked: '" ++ t ++ "'")⟩
    else ⟨"PASS", some t, none⟩

/-- One run of `test_emotion_benchmark` including the final
`add_result` call on the collector. -/
def test_emotion_benchmark_run (collector : List BenchmarkResult)
    (emotion voice : String) (phrase_idx : ℕ) (phrase : String)
    (run_number : ℕ) (category : String) (o : RunOutcome) :
    List BenchmarkResult :=
  let rr := run_one emotion o
  add_result collector emotion voice phrase_idx phrase run_number
    category rr.status rr.transcription rr.error

/-- The spec's invariant on a recorded result: status is one of the
three kinds; ERROR has no transcription and has an error; PASS/FAIL
have a transcription; FAIL's error holds the leaked transcription;
PASS has no error. -/
def resultInvariant (r : BenchmarkResult) : Bool :=
  ((r.status == "PASS" || r.status == "FAIL") || r.status == "ERROR") &&
  (if r.status == "ERROR" then r.transcription.isNone && r.error.isSome
   else r.transcription.isSome) &&
  (if r.status == "FAIL" then
    match r.transcription with
    | some t => r.error == some ("Tag leaked: '" ++ t ++ "'")
    | none => false
   else true) &&
  (if r.status == "PASS" then r.error.isNone else true)

/-! ## Cost estimation (`estimate_cost.py`)

`calculate_confidence_intervals` uses `scipy.stats.norm.ppf` constants
and `math.sqrt`; floats are modelled as reals, the two z-score
constants by the decimal values scipy returns.  `estimate_cost` walks
`get_all_emotions()`, formats each request as `(emotion) phrase`,
accumulates character and UTF-8 byte counts, and derives call count and
cost; its totals are modelled over a parsed catalog with exact
rationals (printing and the per-emotion breakdown are presentation). -/

/-- `stats.norm.ppf(0.975)` as computed by scipy (float64 value). -/
noncomputable def Z_SCORE_95 : ℝ := 1.959963984540054

/-- `stats.norm.ppf(0.995)` as computed by scipy (float64 value). -/
noncomputable def Z_SCORE_99 : ℝ := 2.5758293035489004

/-- `WORST_CASE_PROPORTION = 0.5`. -/
noncomputable def WORST_CASE_PROPORTION : ℝ := 0.5

/-- `calculate_confidence_intervals` from `estimate_cost.py`. -/
noncomputable def calculate_confidence_intervals (sample_size : ℝ) :
    ℝ × ℝ :=
  if sample_size ≤ 0 then (0, 0)
  else
    (Z_SCORE_95 * Real.sqrt
        (WORST_CASE_PROPORTION * (1 - WORST_CASE_PROPORTION) / sample_size),
      Z_SCORE_99 * Real.sqrt
        (WORST_CASE_PROPORTION * (1 - WORST_CASE_PROPORTION) / sample_size))

/-- `COST_PER_MILLION_BYTES = 15.0`. -/
def COST_PER_MILLION_BYTES : ℚ := 15

/-- The request text `f"({emotion}) {phrase}"` sent to TTS. -/
def format_request_text (emotion phrase : String) : String :=
  "(" ++ emotion ++ ") " ++ phrase

/-- `get_all_emotions` from `emotion_bench/emotions.py` over a parsed
catalog: one `(emotion, phrase, index, category)` tuple per phrase,
phrases indexed from 1, category looked up with default `"unknown"`. -/
def get_all_emotions_model (all_emotions : List (String × List String))
    (categories : List (String × String)) :
    List (String × String × ℕ × String) :=
  all_emotions.foldl
    (fun acc p =>
      let category := pyGet categories p.1 "unknown"
      acc ++ p.2.enum.map fun q => (p.1, q.2, q.1 + 1, category))
    []

/-- The quantities `estimate_cost` computes (the printed report). -/
structure CostEstimate where
  total_chars : ℕ
  total_bytes : ℕ
  total_api_calls : ℕ
  estimated_cost : ℚ
deriving DecidableEq, Repr

/-- Pure core of `estimate_cost`: accumulate character and UTF-8 byte
counts of every formatted request, then derive total calls and cost. -/
def estimate_cost (all_emotions : List (String × List String))
    (categories : List (String × String)) (num_voices num_runs : ℕ) :
    CostEstimate :=
  let emotion_phrases := get_all_emotions_model all_emotions categories
  let totals := emotion_phrases.foldl
    (fun (acc : ℕ × ℕ) q =>
      let text := format_request_text q.1 q.2.1
      (acc.1 + text.length, acc.2 + text.utf8ByteSize))
    (0, 0)
  { total_chars := totals.1
    total_bytes := totals.2
    total_api_calls := emotion_phrases.length * num_voices * num_runs
    estimated_cost :=
      ((totals.2 : ℚ) * (num_voices : ℚ) * (num_runs : ℚ)) / 1000000 *
        COST_PER_MILLION_BYTES }

/-! ## Spec-side derived notions used by the claims -/

/-- The status is literally one of the three kinds the spec names. -/
def statusValid (r : BenchmarkResult) : Bool :=
  r.status == "PASS" || r.status == "FAIL" || r.status == "ERROR"

/-- The lowered status hits one of the three initialised tally keys
(the exact condition under which the tally does not raise). -/
def keyValid (r : BenchmarkResult) : Bool :=
  pyLower r.status == "pass" || pyLower r.status == "fail" ||
    pyLower r.status == "error"

/-- Number of results for emotion `e` whose lowered status equals the
tally key `k`. -/
def countKey (results : List BenchmarkResult) (e k : String) : ℕ :=
  (results.filter fun r => r.emotion == e).countP
    fun r => pyLower r.status == k

/-- Number of results for emotion `e` with the given literal status. -/
def countStatus (results : List BenchmarkResult) (e status : String) :
    ℕ :=
  (results.filter fun r => r.emotion == e).countP
    fun r => r.status == status

/-- The emotions in order of first appearance in the result list (the
iteration order of the Python tally dict). -/
def firstSeenEmotions (results : List BenchmarkResult) : List String :=
  results.foldl
    (fun acc r => if r.emotion ∈ acc then acc else acc ++ [r.emotion]) []

/-- The tally key counts of emotion `e`, computed by filtering as the
spec words it. -/
def specCountsKeyed (results : List BenchmarkResult) (e : String) :
    StatusCounts :=
  ⟨countKey results e "pass", countKey results e "fail",
    countKey results e "error"⟩

/-- The status counts of emotion `e`, computed by filtering as the spec
words it. -/
def specCounts (results : List BenchmarkResult) (e : String) :
    StatusCounts :=
  ⟨countStatus results e "PASS", countStatus results e "FAIL",
    countStatus results e "ERROR"⟩

/-- Per-emotion success rate as the spec words it: pass over
pass+fail+error of that emotion's results, times 100. -/
def specEmotionRate (results : List BenchmarkResult) (e : String) : ℚ :=
  rateFromCounts (specCounts results e)

/-- The order-independent summary aggregates: totals, status counts,
and the overall success rate. -/
def summaryTotals (s : Summary) : ℕ × ℕ × ℕ × ℕ × ℚ :=
  (s.total_tests, s.pass_count, s.fail_count, s.error_count,
    s.success_rate)

/-- All per-emotion success rates, keyed in first-seen order. -/
def specEmotionRates (results : List BenchmarkResult) :
    List (String × ℚ) :=
  (firstSeenEmotions results).map fun e => (e, specEmotionRate results e)

/-- Lookup in a rate association list (Python dict access). -/
def lookupRate (rates : List (String × ℚ)) (e : String) : Option ℚ :=
  (rates.find? fun p => p.1 == e).map Prod.snd

/-! ## Concrete sample data for counterexamples and witnesses -/

/-- A passing result in category `basic_emotions`. -/
def sampleResultA : BenchmarkResult :=
  ⟨"happy", "default", 1, "What a great day!", 1, "basic_emotions",
    "PASS", some "What a great day!", none⟩

/-- The same result in a different category. -/
def sampleResultB : BenchmarkResult :=
  { sampleResultA with category := "unofficial_emotions" }

/-- A failing result for the same emotion. -/
def sampleResultFail : BenchmarkResult :=
  { sampleResultA with
    status := "FAIL"
    transcription := some "happy day"
    error := some "Tag leaked: 'happy day'" }

/-- A result whose status is outside the three expected kinds. -/
def skippedResult : BenchmarkResult :=
  { sampleResultA with status := "SKIPPED" }

/-- One pass and two fails: overall success rate 100/3, which rounds. -/
def roundingResults : List BenchmarkResult :=
  [sampleResultA, sampleResultFail, sampleResultFail]

/-- A two-element result list for witnesses. -/
def demoResults : List BenchmarkResult :=
  [sampleResultA, sampleResultFail]

/-- The same two results in the opposite order. -/
def demoPermResults : List BenchmarkResult :=
  [sampleResultFail, sampleResultA]

end EmotionBench

namespace EmotionBench

/-! ## Theorems -/

theorem list_any_congr {α : Type} {l : List α} {f g : α → Bool}
    (h : ∀ a ∈ l, f a = g a) : l.any f = l.any g := by
  induction l with
  | nil => rfl
  | cons x xs ih =>
    simp only [List.any_cons, h x (by simp)]
    rw [ih fun a ha => h a (by simp [ha])]

theorem matchesAt_getElem {tl el : List Char} {i k : ℕ}
    (h : matchesAt tl el i = true) (hk : k < el.length) :
    tl[i + k]? = el[k]? := by
  have he : (tl.drop i).take el.length = el := of_decide_eq_true h
  calc tl[i + k]? = (tl.drop i)[k]? := (List.getElem?_drop tl i k).symm
    _ = ((tl.drop i).take el.length)[k]? :=
        (List.getElem?_take_of_lt hk).symm
    _ = el[k]? := by rw [he]

theorem matchesAt_wordAt {tl el : List Char} {i k : ℕ}
    (h : matchesAt tl el i = true) (hk : k < el.length) :
    wordAt tl (i + k) = wordAt el k := by
  unfold wordAt
  rw [matchesAt_getElem h hk]

theorem matchesAt_le {tl el : List Char} {i : ℕ}
    (h : matchesAt tl el i = true) (hel : el ≠ []) :
    i + el.length ≤ tl.length := by
  have he : (tl.drop i).take el.length = el := of_decide_eq_true h
  have hlen := congrArg List.length he
  simp only [List.length_take, List.length_drop] at hlen
  have : 0 < el.length := List.length_pos.mpr hel
  omega

theorem regex_eq_spec_of_wordEdged (el tl : List Char)
    (h : wordEdged el = true) :
    regexWordSearch el tl = specWholeWord el tl := by
  have hel : ¬el.isEmpty = true ∧ wordAt el 0 = true ∧
      wordAt el (el.length - 1) = true := by
    unfold wordEdged at h
    simp only [Bool.and_eq_true, Bool.not_eq_true'] at h
    exact ⟨by simp [h.1.1], h.1.2, h.2⟩
  have hne : el ≠ [] := by
    intro hc; rw [hc] at hel; simp at hel
  have hpos : 0 < el.length := List.length_pos.mpr hne
  unfold regexWordSearch specWholeWord
  refine list_any_congr fun i _ => ?_
  cases hm : matchesAt tl el i with
  | false => simp [hm]
  | true =>
    have hw0 : wordAt tl i = true := by
      have := matchesAt_wordAt hm hpos
      simpa [hel.2.1] using this
    have hwlast : wordAt tl (i + el.length - 1) = true := by
      have hk : el.length - 1 < el.length := by omega
      have := matchesAt_wordAt hm hk
      have harith : i + (el.length - 1) = i + el.length - 1 := by omega
      rw [harith] at this
      rw [this, hel.2.2]
    have hle : i + el.length ≤ tl.length := matchesAt_le hm hne
    have hb1 : boundaryAt tl i =
        (decide (i = 0) || !wordAt tl (i - 1)) := by
      unfold boundaryAt
      rw [hw0]
      rcases Nat.eq_zero_or_pos i with h0 | h0
      · subst h0; simp
      · have : i ≠ 0 := by omega
        simp [this]
    have hb2 : boundaryAt tl (i + el.length) =
        (decide (i + el.length = tl.length) || !wordAt tl (i + el.length)) := by
      unfold boundaryAt
      have hnz : ¬(i + el.length = 0) := by omega
      simp only [if_neg hnz, hwlast, Bool.true_bne]
      rcases Nat.lt_or_ge (i + el.length) tl.length with hlt | hge
      · have : ¬(i + el.length = tl.length) := by omega
        simp [this]
      · have heq : i + el.length = tl.length := by omega
        have : wordAt tl (i + el.length) = false := by
          unfold wordAt
          rw [List.getElem?_eq_none (by omega)]
        simp [this]
    rw [hb1, hb2]

/-- C1 (amended): for every transcription `T` and every tag `E` whose
lowered form is non-empty and begins and ends with a word character,
`contains_emotion_tag T E` is false when `T` is empty and otherwise true
iff, case-insensitively, `T` contains the literal substring `(E)` or `E`
occurs as a whole word bounded by the string ends or non-word
characters; moreover `contains_emotion_tag "unhappy days" "happy"` is
false. -/
theorem contains_emotion_tag_spec :
    (∀ t e : String, wordEdged (lowerList e.toList) = true →
      contains_emotion_tag t e = spec_contains_emotion_tag t e) ∧
    contains_emotion_tag "unhappy days" "happy" = false := by
  constructor
  · intro t e h
    unfold contains_emotion_tag spec_contains_emotion_tag
    cases hemp : t.toList.isEmpty with
    | true =>
      rw [List.isEmpty_iff] at hemp
      have hd : t.data = [] := hemp
      simp [hd]
    | false =>
      simp only [hemp, Bool.false_eq_true, if_false, Bool.not_false,
        Bool.true_and]
      rw [regex_eq_spec_of_wordEdged _ _ h]
      cases containsSub (lowerList t.toList)
          ('(' :: lowerList e.toList ++ [')']) <;>
        cases specWholeWord (lowerList e.toList) (lowerList t.toList) <;>
        simp
  · decide

/-- C1 witness: the amended equivalence applied at a concrete
transcription and tag. -/
theorem contains_emotion_tag_spec_witness :
    contains_emotion_tag "hello happy world" "happy" =
      spec_contains_emotion_tag "hello happy world" "happy" :=
  contains_emotion_tag_spec.1 "hello happy world" "happy" (by decide)

/-- C1 counterexample: for the tag `"!!"` (edge characters are not word
characters) in `"a !! b"`, the spec's whole-word description holds but
`contains_emotion_tag` returns false, because the regex `\b` assertion
requires a word/non-word transition, not merely non-word neighbours. -/
theorem contains_emotion_tag_claim_false :
    contains_emotion_tag "a !! b" "!!" = false ∧
    spec_contains_emotion_tag "a !! b" "!!" = true := by
  constructor <;> decide

theorem dictInsert_keys_mem {α : Type} (m : List (String × α))
    (k k' : String) (v : α) :
    k' ∈ dictKeys (dictInsert m k v) ↔ k' ∈ dictKeys m ∨ k' = k := by
  unfold dictInsert dictKeys
  by_cases h : (m.any fun p => p.1 == k) = true
  · rw [if_pos h]
    have hkeys : ((m.map fun p => if p.1 == k then (k, v) else p).map
        Prod.fst) = m.map Prod.fst := by
      rw [List.map_map]
      apply List.map_congr_left
      intro p _
      by_cases hpk : (p.1 == k) = true
      · simp only [Function.comp_apply, if_pos hpk]
        exact (eq_of_beq hpk).symm
      · simp only [Function.comp_apply, if_neg hpk]
    rw [hkeys]
    have hk : k ∈ m.map Prod.fst := by
      rcases List.any_eq_true.mp h with ⟨p, hp, hpk⟩
      rcases eq_of_beq hpk with rfl
      exact List.mem_map_of_mem Prod.fst hp
    constructor
    · exact Or.inl
    · rintro (hm | rfl)
      · exact hm
      · exact hk
  · rw [if_neg h]
    simp [List.map_append]

theorem dictUpdate_keys_mem {α : Type} (new : List (String × α))
    (m : List (String × α)) (k' : String) :
    k' ∈ dictKeys (dictUpdate m new) ↔
      k' ∈ dictKeys m ∨ k' ∈ dictKeys new := by
  induction new generalizing m with
  | nil => simp [dictUpdate, dictKeys]
  | cons p rest ih =>
    simp only [dictUpdate, List.foldl_cons] at *
    rw [ih, dictInsert_keys_mem]
    simp only [dictKeys, List.map_cons, List.mem_cons]
    tauto

/-- C3 (amended): `_load_emotions` performs no validation of phrase
lists: it is a total function of the parsed catalog, and a tag appears
in the returned `all_emotions` mapping exactly when it appears in one of
the five recognized categories of the input — whether or not its phrase
list is empty.  (Missing or malformed files raise the underlying builtin
exceptions during I/O, which is outside the pure core; no
`ConfigurationError` exists in the code.) -/
theorem load_emotions_no_validation :
    ∀ (data : Catalog) (tag : String),
      tag ∈ dictKeys (_load_emotions data).1 ↔
        ∃ name ∈ categoryNames, tag ∈ dictKeys (pyGet data name []) := by
  intro data tag
  simp only [_load_emotions, categoryNames, List.foldl_cons, List.foldl_nil]
  rw [dictUpdate_keys_mem, dictUpdate_keys_mem, dictUpdate_keys_mem,
    dictUpdate_keys_mem, dictUpdate_keys_mem]
  simp only [dictKeys, List.map_nil, List.not_mem_nil, false_or]
  constructor
  · intro h
    rcases h with ((((h | h) | h) | h) | h) <;>
      exact ⟨_, by simp, h⟩
  · rintro ⟨name, hname, h⟩
    simp only [List.mem_cons, List.not_mem_nil, or_false] at hname
    rcases hname with rfl | rfl | rfl | rfl | rfl
    · exact Or.inl (Or.inl (Or.inl (Or.inl h)))
    · exact Or.inl (Or.inl (Or.inl (Or.inr h)))
    · exact Or.inl (Or.inl (Or.inr h))
    · exact Or.inl (Or.inr h)
    · exact Or.inr h

/-- C3 counterexample: on a catalog mapping the tag `"happy"` to an
empty phrase list, `_load_emotions` returns the mapping containing that
tag (with its empty list) instead of failing. -/
theorem load_emotions_returns_empty_phrase_list :
    _load_emotions [("basic_emotions", [("happy", ([] : List String))])] =
      ([("happy", ([] : List String))], [("happy", "basic_emotions")]) := by
  decide

/-- C2: forwarding a worker's results to the central aggregator does
not preserve the `category` field.  The worker-side serialisation maps
two results differing only in `category` to the same payload, and the
controller-side merge of any non-empty payload raises `TypeError`
(`add_result` is called without its required `category` argument). -/
theorem worker_forwarding_loses_category :
    pytest_testnodedown [] [workerSerializeResult sampleResultA] = none ∧
    workerSerializeResult sampleResultA =
      workerSerializeResult sampleResultB ∧
    sampleResultA.category ≠ sampleResultB.category := by
  refine ⟨rfl, rfl, ?_⟩
  decide

/-- C8: whatever the synthesis and transcription adapters return or
raise, the result recorded for one run has status PASS, FAIL or ERROR;
ERROR has no transcription and carries an error; PASS/FAIL carry the
transcription; FAIL's error holds the leaked transcription; PASS has no
error. -/
theorem benchmark_result_status_invariant :
    ∀ (collector : List BenchmarkResult) (emotion voice : String)
      (phrase_idx : ℕ) (phrase : String) (run_number : ℕ)
      (category : String) (o : RunOutcome),
      ∃ r : BenchmarkResult,
        test_emotion_benchmark_run collector emotion voice phrase_idx
          phrase run_number category o = collector ++ [r] ∧
        resultInvariant r = true := by
  intro collector emotion voice phrase_idx phrase run_number category o
  cases o with
  | raised msg =>
    refine ⟨_, rfl, ?_⟩
    simp [test_emotion_benchmark_run, add_result, run_one, resultInvariant]
  | transcribed t =>
    by_cases h : contains_emotion_tag t emotion = true
    · refine ⟨_, rfl, ?_⟩
      simp [test_emotion_benchmark_run, add_result, run_one, h,
        resultInvariant]
    · refine ⟨_, rfl, ?_⟩
      simp only [Bool.not_eq_true] at h
      simp [test_emotion_benchmark_run, add_result, run_one, h,
        resultInvariant]

/-- C9: with zero results, the markdown writer returns without
producing any content, the JSON report still contains the (empty)
result list and the empty summary mapping, and `get_summary` returns
the empty summary without raising. -/
theorem empty_collector_degenerate :
    save_markdown_summary [] = some none ∧
    save_results ([] : List BenchmarkResult) = some ⟨[], none⟩ ∧
    get_summary [] = some none :=
  ⟨rfl, rfl, rfl⟩

/-- C6: the confidence-interval margins are 0 for sample sizes ≤ 0 and
otherwise `z · sqrt(0.5·0.5/n)` with the stated z values; both margins
strictly decrease as the sample size grows. -/
theorem calculate_confidence_intervals_spec :
    (∀ n : ℝ, n ≤ 0 → calculate_confidence_intervals n = (0, 0)) ∧
    (∀ n : ℝ, 0 < n → calculate_confidence_intervals n =
      (Z_SCORE_95 * Real.sqrt (0.5 * 0.5 / n),
       Z_SCORE_99 * Real.sqrt (0.5 * 0.5 / n))) ∧
    |Z_SCORE_95 - 1.95996| < 1 / 100000 ∧
    |Z_SCORE_99 - 2.57583| < 1 / 100000 ∧
    (∀ n₁ n₂ : ℝ, 0 < n₁ → n₁ < n₂ →
      (calculate_confidence_intervals n₂).1 <
        (calculate_confidence_intervals n₁).1 ∧
      (calculate_confidence_intervals n₂).2 <
        (calculate_confidence_intervals n₁).2) := by
  have hz95 : (0 : ℝ) < Z_SCORE_95 := by unfold Z_SCORE_95; norm_num
  have hz99 : (0 : ℝ) < Z_SCORE_99 := by unfold Z_SCORE_99; norm_num
  have harg : WORST_CASE_PROPORTION * (1 - WORST_CASE_PROPORTION) =
      (0.5 : ℝ) * 0.5 := by unfold WORST_CASE_PROPORTION; norm_num
  have hmargin : ∀ n₁ n₂ : ℝ, 0 < n₁ → n₁ < n₂ →
      Real.sqrt (0.5 * 0.5 / n₂) < Real.sqrt (0.5 * 0.5 / n₁) := by
    intro n₁ n₂ h1 h12
    have h2 : (0 : ℝ) < n₂ := lt_trans h1 h12
    apply Real.sqrt_lt_sqrt
    · positivity
    · apply div_lt_div_of_pos_left (by norm_num) h1 h12
  have hpos : ∀ n : ℝ, 0 < n → calculate_confidence_intervals n =
      (Z_SCORE_95 * Real.sqrt (0.5 * 0.5 / n),
       Z_SCORE_99 * Real.sqrt (0.5 * 0.5 / n)) := by
    intro n hn
    unfold calculate_confidence_intervals
    rw [if_neg (by linarith), harg]
  refine ⟨?_, hpos, ?_, ?_, ?_⟩
  · intro n hn
    unfold calculate_confidence_intervals
    rw [if_pos hn]
  · unfold Z_SCORE_95
    rw [abs_sub_lt_iff]
    norm_num
  · unfold Z_SCORE_99
    rw [abs_sub_lt_iff]
    norm_num
  · intro n₁ n₂ h1 h12
    rw [hpos n₁ h1, hpos n₂ (by linarith)]
    constructor
    · exact mul_lt_mul_of_pos_left (hmargin n₁ n₂ h1 h12) hz95
    · exact mul_lt_mul_of_pos_left (hmargin n₁ n₂ h1 h12) hz99

/-- C6 witness: the theorem applied at the concrete sample sizes 0 and
1 < 2. -/
theorem calculate_confidence_intervals_spec_witness :
    calculate_confidence_intervals 0 = (0, 0) ∧
    (calculate_confidence_intervals 2).1 <
      (calculate_confidence_intervals 1).1 :=
  ⟨calculate_confidence_intervals_spec.1 0 le_rfl,
    (calculate_confidence_intervals_spec.2.2.2.2 1 2 one_pos
      one_lt_two).1⟩

theorem estimate_totals (l : List (String × String × ℕ × String)) :
    ∀ a b : ℕ,
      l.foldl (fun (acc : ℕ × ℕ) q =>
          let text := format_request_text q.1 q.2.1
          (acc.1 + text.length, acc.2 + text.utf8ByteSize)) (a, b) =
        (a + (l.map fun q => (format_request_text q.1 q.2.1).length).sum,
          b + (l.map fun q =>
            (format_request_text q.1 q.2.1).utf8ByteSize).sum) := by
  induction l with
  | nil => intro a b; simp
  | cons x xs ih =>
    intro a b
    rw [List.foldl_cons, ih]
    simp [Nat.add_assoc]

/-- C7: the estimator totals are exactly the spec's formulas — the
UTF-8 byte count summed over every formatted `(emotion) phrase`
request, API calls = phrases × voices × runs, and
cost = bytes × voices × runs / 1,000,000 × 15 — and on the concrete
catalog of two one-phrase emotions with 10- and 12-byte texts, one
voice and one run they come to 22 bytes, 2 calls and 22/1,000,000 × 15
dollars. -/
theorem estimate_cost_spec :
    (∀ (all_emotions : List (String × List String))
       (categories : List (String × String)) (num_voices num_runs : ℕ),
      (estimate_cost all_emotions categories num_voices num_runs).total_bytes
          = ((get_all_emotions_model all_emotions categories).map
              fun q => (format_request_text q.1 q.2.1).utf8ByteSize).sum ∧
      (estimate_cost all_emotions categories num_voices num_runs).total_api_calls
          = (get_all_emotions_model all_emotions categories).length *
              num_voices * num_runs ∧
      (estimate_cost all_emotions categories num_voices num_runs).estimated_cost
          = ((((get_all_emotions_model all_emotions categories).map
                fun q => (format_request_text q.1 q.2.1).utf8ByteSize).sum : ℚ)
              * (num_voices : ℚ) * (num_runs : ℚ)) / 1000000 *
              COST_PER_MILLION_BYTES) ∧
    estimate_cost [("joy", ["hi!!"]), ("sad", ["hello!"])]
        [("joy", "basic_emotions"), ("sad", "basic_emotions")] 1 1 =
      { total_chars := 22
        total_bytes := 22
        total_api_calls := 2
        estimated_cost := (22 : ℚ) / 1000000 * 15 } := by
  constructor
  · intro all_emotions categories num_voices num_runs
    refine ⟨?_, rfl, ?_⟩
    · unfold estimate_cost
      simp only [estimate_totals]
      simp
    · unfold estimate_cost
      simp only [estimate_totals]
      norm_num
  · have hlist : get_all_emotions_model
        [("joy", ["hi!!"]), ("sad", ["hello!"])]
        [("joy", "basic_emotions"), ("sad", "basic_emotions")] =
        [("joy", "hi!!", 1, "basic_emotions"),
          ("sad", "hello!", 1, "basic_emotions")] := by decide
    have hb : (([("joy", "hi!!", 1, "basic_emotions"),
        ("sad", "hello!", 1, "basic_emotions")].map fun q =>
          (format_request_text q.1 q.2.1).utf8ByteSize).sum) = 22 := by
      decide
    have hc : (([("joy", "hi!!", 1, "basic_emotions"),
        ("sad", "hello!", 1, "basic_emotions")].map fun q =>
          (format_request_text q.1 q.2.1).length).sum) = 22 := by
      decide
    simp only [estimate_cost, hlist, estimate_totals, hb, hc]
    simp only [CostEstimate.mk.injEq]
    norm_num [COST_PER_MILLION_BYTES]

theorem tallyStep_of_keyValid (stats : List (String × StatusCounts))
    (r : BenchmarkResult) (h : keyValid r = true) :
    tallyStep stats r = some
      ((if stats.any fun p => p.1 == r.emotion then stats
        else stats ++ [(r.emotion, ⟨0, 0, 0⟩)]).map fun p =>
          if p.1 == r.emotion then
            (p.1, bumpCount p.2 (pyLower r.status)) else p) := by
  have hk : pyLower r.status = "pass" ∨ pyLower r.status = "fail" ∨
      pyLower r.status = "error" := by
    unfold keyValid at h
    simp only [Bool.or_eq_true, beq_iff_eq] at h
    tauto
  unfold tallyStep
  rw [if_pos hk]

theorem tallyStep_of_bad_key (stats : List (String × StatusCounts))
    (r : BenchmarkResult) (h : keyValid r = false) :
    tallyStep stats r = none := by
  have hk : ¬(pyLower r.status = "pass" ∨ pyLower r.status = "fail" ∨
      pyLower r.status = "error") := by
    unfold keyValid at h
    simp only [Bool.or_eq_false_iff, beq_eq_false_iff_ne, ne_eq] at h
    tauto
  unfold tallyStep
  rw [if_neg hk]

theorem foldlM_tally_isSome (rs : List BenchmarkResult) :
    ∀ stats, (rs.foldlM tallyStep stats).isSome = rs.all keyValid := by
  induction rs with
  | nil => intro stats; rfl
  | cons r rs' ih =>
    intro stats
    rw [List.foldlM_cons, List.all_cons]
    cases hk : keyValid r with
    | false =>
      rw [tallyStep_of_bad_key stats r hk]
      rfl
    | true =>
      rw [tallyStep_of_keyValid stats r hk]
      simp only [Option.bind_eq_bind, Option.some_bind, Bool.true_and]
      exact ih _

theorem emotion_stats_isSome (rs : List BenchmarkResult) :
    (emotion_stats rs).isSome = rs.all keyValid :=
  foldlM_tally_isSome rs []

theorem emotion_stats_append (rs : List BenchmarkResult)
    (r : BenchmarkResult) :
    emotion_stats (rs ++ [r]) =
      (emotion_stats rs).bind fun s => tallyStep s r := by
  unfold emotion_stats
  rw [List.foldlM_append]
  simp

theorem firstSeen_append (rs : List BenchmarkResult)
    (r : BenchmarkResult) :
    firstSeenEmotions (rs ++ [r]) =
      if r.emotion ∈ firstSeenEmotions rs then firstSeenEmotions rs
      else firstSeenEmotions rs ++ [r.emotion] := by
  unfold firstSeenEmotions
  rw [List.foldl_append, List.foldl_cons, List.foldl_nil]

theorem mem_firstSeen (rs : List BenchmarkResult) (e : String) :
    e ∈ firstSeenEmotions rs ↔ ∃ r ∈ rs, r.emotion = e := by
  induction rs using List.reverseRecOn with
  | nil => simp [firstSeenEmotions]
  | append_singleton rs r ih =>
    rw [firstSeen_append]
    by_cases hmem : r.emotion ∈ firstSeenEmotions rs
    · rw [if_pos hmem, ih]
      constructor
      · rintro ⟨x, hx, he⟩
        exact ⟨x, by simp [hx], he⟩
      · rintro ⟨x, hx, he⟩
        rcases List.mem_append.mp hx with hx' | hx'
        · exact ⟨x, hx', he⟩
        · rcases List.mem_singleton.mp hx' with rfl
          rw [he] at hmem
          exact ih.mp hmem
    · rw [if_neg hmem, List.mem_append, ih]
      simp only [List.mem_singleton]
      constructor
      · rintro (⟨x, hx, he⟩ | rfl)
        · exact ⟨x, by simp [hx], he⟩
        · exact ⟨r, by simp, rfl⟩
      · rintro ⟨x, hx, he⟩
        rcases List.mem_append.mp hx with hx' | hx'
        · exact Or.inl ⟨x, hx', he⟩
        · rcases List.mem_singleton.mp hx' with rfl
          exact Or.inr he.symm

theorem map_keyed_any {α : Type} (l : List String) (f : String → α)
    (x : String) :
    ((l.map fun e => (e, f e)).any fun p => p.1 == x) = decide (x ∈ l) := by
  induction l with
  | nil => simp
  | cons e es ih =>
    simp only [List.map_cons, List.any_cons, ih, List.mem_cons]
    by_cases he : x = e
    · subst he; simp
    · have h1 : (e == x) = false := by
        simp only [beq_eq_false_iff_ne, ne_eq]
        exact fun hc => he hc.symm
      simp [h1, he]

theorem lookup_map_keyed {α : Type} (l : List String) (f : String → α)
    (x : String) :
    (((l.map fun e => (e, f e)).find? fun p => p.1 == x).map Prod.snd) =
      if x ∈ l then some (f x) else none := by
  induction l with
  | nil => simp
  | cons e es ih =>
    by_cases he : x = e
    · subst he
      simp [List.find?_cons_of_pos]
    · have h1 : (e == x) = false := by
        simp only [beq_eq_false_iff_ne, ne_eq]
        exact fun hc => he hc.symm
      rw [List.map_cons, List.find?_cons_of_neg _ (by simp [h1]), ih]
      have h2 : (x ∈ e :: es) ↔ x ∈ es := by
        simp [List.mem_cons, he]
      by_cases hm : x ∈ es
      · rw [if_pos hm, if_pos (h2.mpr hm)]
      · rw [if_neg hm, if_neg (fun hc => hm (h2.mp hc))]

theorem countKey_append (rs : List BenchmarkResult)
    (r : BenchmarkResult) (e k : String) :
    countKey (rs ++ [r]) e k = countKey rs e k +
      (if r.emotion = e ∧ pyLower r.status = k then 1 else 0) := by
  unfold countKey
  rw [List.filter_append, List.countP_append]
  congr 1
  by_cases h1 : r.emotion = e
  · have hb1 : (r.emotion == e) = true := beq_iff_eq.mpr h1
    by_cases h2 : pyLower r.status = k
    · have hb2 : (pyLower r.status == k) = true := beq_iff_eq.mpr h2
      rw [if_pos ⟨h1, h2⟩]
      simp [hb1, hb2, List.countP_cons]
    · have hb2 : (pyLower r.status == k) = false :=
        beq_eq_false_iff_ne.mpr h2
      rw [if_neg (fun hc => h2 hc.2)]
      simp [hb1, hb2, List.countP_cons]
  · have hb1 : (r.emotion == e) = false := beq_eq_false_iff_ne.mpr h1
    rw [if_neg (fun hc => h1 hc.1)]
    simp [hb1]

theorem countKey_eq_zero {rs : List BenchmarkResult} {x : String}
    (h : ∀ r ∈ rs, r.emotion ≠ x) (k : String) : countKey rs x k = 0 := by
  unfold countKey
  rw [List.filter_eq_nil_iff.mpr ?_]
  · rfl
  · intro a ha
    simp [h a ha]

theorem keyValid_cases {r : BenchmarkResult} (h : keyValid r = true) :
    pyLower r.status = "pass" ∨ pyLower r.status = "fail" ∨
      pyLower r.status = "error" := by
  unfold keyValid at h
  simp only [Bool.or_eq_true, beq_iff_eq] at h
  tauto

theorem specCountsKeyed_append_self (rs : List BenchmarkResult)
    (r : BenchmarkResult) (h3 : keyValid r = true) :
    specCountsKeyed (rs ++ [r]) r.emotion =
      bumpCount (specCountsKeyed rs r.emotion) (pyLower r.status) := by
  rcases keyValid_cases h3 with h | h | h <;>
    simp [specCountsKeyed, bumpCount, countKey_append, h]

theorem specCountsKeyed_append_other (rs : List BenchmarkResult)
    (r : BenchmarkResult) (e : String) (he : r.emotion ≠ e) :
    specCountsKeyed (rs ++ [r]) e = specCountsKeyed rs e := by
  simp [specCountsKeyed, countKey_append, he]

theorem emotion_stats_keyed (rs : List BenchmarkResult)
    (h : ∀ r ∈ rs, keyValid r = true) :
    emotion_stats rs = some ((firstSeenEmotions rs).map fun e =>
      (e, specCountsKeyed rs e)) := by
  induction rs using List.reverseRecOn with
  | nil => rfl
  | append_singleton rs r ih =>
    have hr : keyValid r = true := h r (by simp)
    have hrs : ∀ x ∈ rs, keyValid x = true :=
      fun x hx => h x (by simp [hx])
    rw [emotion_stats_append, ih hrs]
    simp only [Option.bind_eq_bind, Option.some_bind]
    rw [tallyStep_of_keyValid _ _ hr]
    congr 1
    rw [map_keyed_any, firstSeen_append]
    by_cases hmem : r.emotion ∈ firstSeenEmotions rs
    · rw [if_pos (decide_eq_true hmem), if_pos hmem, List.map_map]
      apply List.map_congr_left
      intro e he
      by_cases hee : e = r.emotion
      · subst hee
        simp only [Function.comp_apply, beq_self_eq_true, if_true]
        rw [specCountsKeyed_append_self rs r hr]
      · have hb : (e == r.emotion) = false := beq_eq_false_iff_ne.mpr hee
        simp only [Function.comp_apply, hb, Bool.false_eq_true, if_false]
        rw [specCountsKeyed_append_other rs r e fun hc => hee hc.symm]
    · rw [if_neg fun hc => hmem (of_decide_eq_true hc), if_neg hmem,
        List.map_append, List.map_map]
      rw [List.map_append]
      congr 1
      · apply List.map_congr_left
        intro e he
        have hee : e ≠ r.emotion := fun hc => hmem (hc ▸ he)
        have hb : (e == r.emotion) = false := beq_eq_false_iff_ne.mpr hee
        simp only [Function.comp_apply, hb, Bool.false_eq_true, if_false]
        rw [specCountsKeyed_append_other rs r e fun hc => hee hc.symm]
      · have hzero : specCountsKeyed rs r.emotion = ⟨0, 0, 0⟩ := by
          have hx : ∀ x ∈ rs, x.emotion ≠ r.emotion := by
            intro x hx hc
            exact hmem ((mem_firstSeen rs r.emotion).mpr ⟨x, hx, hc⟩)
          simp [specCountsKeyed, countKey_eq_zero hx]
        simp only [List.map_cons, List.map_nil, beq_self_eq_true, if_true]
        rw [specCountsKeyed_append_self rs r hr, hzero]

theorem statusValid_keyValid {r : BenchmarkResult}
    (h : statusValid r = true) : keyValid r = true := by
  unfold statusValid at h
  simp only [Bool.or_eq_true, beq_iff_eq] at h
  unfold keyValid
  rcases h with (h | h) | h <;> rw [h] <;> decide

theorem specCounts_eq_keyed (rs : List BenchmarkResult)
    (h : ∀ r ∈ rs, statusValid r = true) (e : String) :
    specCountsKeyed rs e = specCounts rs e := by
  have hgen : ∀ k K : String,
      (∀ x : BenchmarkResult, statusValid x = true →
        ((pyLower x.status == k) = true ↔ (x.status == K) = true)) →
      countKey rs e k = countStatus rs e K := by
    intro k K hiff
    unfold countKey countStatus
    apply List.countP_congr
    intro x hx
    exact hiff x (h x (List.mem_of_mem_filter hx))
  unfold specCountsKeyed specCounts
  rw [hgen "pass" "PASS" ?_, hgen "fail" "FAIL" ?_, hgen "error" "ERROR" ?_]
  all_goals
    intro x hv
    unfold statusValid at hv
    simp only [Bool.or_eq_true, beq_iff_eq] at hv
    rcases hv with (hv | hv) | hv <;> rw [hv] <;> decide

theorem emotion_stats_valid (rs : List BenchmarkResult)
    (h : ∀ r ∈ rs, statusValid r = true) :
    emotion_stats rs = some ((firstSeenEmotions rs).map fun e =>
      (e, specCounts rs e)) := by
  rw [emotion_stats_keyed rs fun r hr => statusValid_keyValid (h r hr)]
  congr 1
  apply List.map_congr_left
  intro e _
  rw [specCounts_eq_keyed rs h e]

theorem pyRound2_eval_down (q : ℚ) (m : ℤ) (h1 : (m : ℚ) ≤ q * 100)
    (h2 : q * 100 - (m : ℚ) < 1 / 2) : pyRound2 q = (m : ℚ) / 100 := by
  have hf : ⌊q * 100⌋ = m := Int.floor_eq_iff.mpr ⟨h1, by linarith⟩
  unfold pyRound2 pyRoundTo roundHalfEven
  rw [show ((10 : ℚ) ^ (2 : ℕ)) = 100 by norm_num, hf, if_pos h2]

theorem pyRound2_eval_up (q : ℚ) (m : ℤ) (h1 : (m : ℚ) ≤ q * 100)
    (h2 : 1 / 2 < q * 100 - (m : ℚ)) (h3 : q * 100 < (m : ℚ) + 1) :
    pyRound2 q = ((m : ℚ) + 1) / 100 := by
  have hf : ⌊q * 100⌋ = m := Int.floor_eq_iff.mpr ⟨h1, by linarith⟩
  unfold pyRound2 pyRoundTo roundHalfEven
  rw [show ((10 : ℚ) ^ (2 : ℕ)) = 100 by norm_num, hf,
    if_neg (by linarith), if_pos h2]
  push_cast
  ring

/-- C4 (amended): for every non-empty result list whose statuses are
all PASS/FAIL/ERROR, `get_summary` returns: total = length; per-status
counts; overall success rate = pass/total×100 **rounded to two
decimals**; best-5 and worst-5 emotions ranked by the (unrounded)
per-emotion success rate pass/(pass+fail+error)×100 over that emotion's
results, stable-sorted over the first-seen emotion order, with the
reported rates rounded to two decimals. -/
theorem get_summary_spec (rs : List BenchmarkResult) (hne : rs ≠ [])
    (h : ∀ r ∈ rs, statusValid r = true) :
    get_summary rs = some (some
      { total_tests := rs.length
        pass_count := rs.countP fun r => r.status == "PASS"
        fail_count := rs.countP fun r => r.status == "FAIL"
        error_count := rs.countP fun r => r.status == "ERROR"
        success_rate := pyRound2
          ((((rs.countP fun r => r.status == "PASS") : ℕ) : ℚ) /
            ((rs.length : ℕ) : ℚ) * 100)
        best_emotions := ((sortDescRates (specEmotionRates rs)).take 5).map
          fun p => (p.1, pyRound2 p.2)
        worst_emotions := ((sortAscRates (specEmotionRates rs)).take 5).map
          fun p => (p.1, pyRound2 p.2) }) := by
  have hemp : rs.isEmpty = false := by
    cases rs with
    | nil => exact absurd rfl hne
    | cons a l => rfl
  have hrates : ratesOf ((firstSeenEmotions rs).map fun e =>
      (e, specCounts rs e)) = specEmotionRates rs := by
    unfold ratesOf specEmotionRates specEmotionRate
    rw [List.map_map]
    rfl
  have hpos : rs.length > 0 := List.length_pos.mpr hne
  unfold get_summary
  rw [if_neg (by simp [hemp]), emotion_stats_valid rs h]
  simp only [Option.map, hrates, if_pos hpos]

/-- C4 witness: the amended summary shape evaluated on a concrete
two-result list (one pass and one fail for the emotion `happy`). -/
theorem get_summary_spec_witness :
    get_summary demoResults = some (some
      { total_tests := 2, pass_count := 1, fail_count := 1,
        error_count := 0, success_rate := 50,
        best_emotions := [("happy", 50)],
        worst_emotions := [("happy", 50)] }) := by
  rw [get_summary_spec demoResults (by decide) (by decide)]
  have hcp : (demoResults.countP fun r => r.status == "PASS") = 1 := by
    decide
  have hcf : (demoResults.countP fun r => r.status == "FAIL") = 1 := by
    decide
  have hce : (demoResults.countP fun r => r.status == "ERROR") = 0 := by
    decide
  have hlen : demoResults.length = 2 := by decide
  have hfs : firstSeenEmotions demoResults = ["happy"] := by decide
  have hsc : specCounts demoResults "happy" = ⟨1, 1, 0⟩ := by decide
  have hrate : specEmotionRate demoResults "happy" = 50 := by
    unfold specEmotionRate rateFromCounts
    rw [hsc]
    norm_num
  have hrates : specEmotionRates demoResults = [("happy", 50)] := by
    unfold specEmotionRates
    rw [hfs, List.map_cons, List.map_nil, hrate]
  have h50 : pyRound2 50 = 50 := by
    rw [pyRound2_eval_down 50 5000 (by norm_num) (by norm_num)]
    norm_num
  have hsr : pyRound2 ((((1 : ℕ) : ℚ)) / (((2 : ℕ) : ℚ)) * 100) = 50 := by
    rw [show ((((1 : ℕ) : ℚ)) / (((2 : ℕ) : ℚ)) * 100) = 50 by norm_num]
    exact h50
  simp only [hcp, hcf, hce, hlen, hrates]
  simp [sortDescRates, insertDescRate, sortAscRates, insertAscRate, h50,
    hsr]
  rw [show ((2 : ℚ)⁻¹ * 100) = 50 by norm_num]
  exact h50

/-- C4 counterexample: on one pass and two fails the claim's exact
overall success rate is 100/3, but `get_summary` reports the
two-decimal rounding 33.33 = 3333/100, which differs. -/
theorem get_summary_rounds_success_rate :
    (get_summary roundingResults).map (Option.map Summary.success_rate) =
      some (some ((3333 : ℚ) / 100)) ∧
    ((3333 : ℚ) / 100) ≠ (100 : ℚ) / 3 := by
  constructor
  · have hemp : roundingResults.isEmpty = false := by decide
    have hstats : emotion_stats roundingResults =
        some [("happy", ⟨1, 2, 0⟩)] := by decide
    have hcp : (roundingResults.countP fun r => r.status == "PASS") = 1 := by
      decide
    have hlen : roundingResults.length = 3 := by decide
    unfold get_summary
    rw [if_neg (by simp [hemp]), hstats]
    simp only [Option.map_some, hcp, hlen]
    have hval : ((((1 : ℕ) : ℚ)) / (((3 : ℕ) : ℚ)) * 100) = 100 / 3 := by
      norm_num
    rw [if_pos (by norm_num), hval,
      pyRound2_eval_down ((100 : ℚ) / 3) 3333 (by norm_num) (by norm_num)]
    norm_num
  · norm_num

theorem countKey_perm {l l' : List BenchmarkResult} (h : l.Perm l')
    (e k : String) : countKey l e k = countKey l' e k := by
  unfold countKey
  exact (h.filter _).countP_eq _

theorem summary_totals_eval (rs : List BenchmarkResult)
    (s : List (String × StatusCounts)) (hemp : rs.isEmpty = false)
    (hs : emotion_stats rs = some s) :
    (get_summary rs).map (Option.map summaryTotals) = some (some
      (rs.length, rs.countP (fun r => r.status == "PASS"),
        rs.countP (fun r => r.status == "FAIL"),
        rs.countP (fun r => r.status == "ERROR"),
        pyRound2 (if rs.length > 0 then
          (((rs.countP fun r => r.status == "PASS") : ℕ) : ℚ) /
            ((rs.length : ℕ) : ℚ) * 100
          else 0))) := by
  unfold get_summary
  rw [if_neg (by simp [hemp]), hs]
  simp [Option.map, summaryTotals]

/-- C5: permuting the result list leaves the totals, the per-status
counts, the overall success rate and every per-emotion success rate of
the summary unchanged (only tie-breaks in the first-seen emotion
ordering of the best/worst lists may differ). -/
theorem get_summary_perm_invariant :
    ∀ l l' : List BenchmarkResult, l.Perm l' →
      ((get_summary l).map (Option.map summaryTotals) =
        (get_summary l').map (Option.map summaryTotals)) ∧
      ∀ e : String,
        (emotion_success_rates l).map (fun rates => lookupRate rates e) =
          (emotion_success_rates l').map fun rates => lookupRate rates e := by
  intro l l' hperm
  rcases eq_or_ne l [] with rfl | hne
  · have h0 : l' = [] := hperm.symm.eq_nil
    subst h0
    exact ⟨rfl, fun e => rfl⟩
  have hne' : l' ≠ [] := fun hc => hne ((hc ▸ hperm).eq_nil)
  have hemp : l.isEmpty = false := by
    cases l with
    | nil => exact absurd rfl hne
    | cons a t => rfl
  have hemp' : l'.isEmpty = false := by
    cases l' with
    | nil => exact absurd rfl hne'
    | cons a t => rfl
  by_cases hall : l.all keyValid = true
  · have hall' : l'.all keyValid = true := by
      rw [List.all_eq_true] at hall ⊢
      exact fun x hx => hall x (hperm.symm.subset hx)
    have hv : ∀ r ∈ l, keyValid r = true := List.all_eq_true.mp hall
    have hv' : ∀ r ∈ l', keyValid r = true := List.all_eq_true.mp hall'
    constructor
    · rw [summary_totals_eval l _ hemp (emotion_stats_keyed l hv),
        summary_totals_eval l' _ hemp' (emotion_stats_keyed l' hv'),
        hperm.length_eq, hperm.countP_eq, hperm.countP_eq,
        hperm.countP_eq]
    · intro e
      unfold emotion_success_rates
      rw [emotion_stats_keyed l hv, emotion_stats_keyed l' hv']
      simp only [Option.map]
      congr 1
      have hcomp : ∀ rs : List BenchmarkResult,
          ratesOf ((firstSeenEmotions rs).map fun x =>
            (x, specCountsKeyed rs x)) =
          (firstSeenEmotions rs).map fun x =>
            (x, rateFromCounts (specCountsKeyed rs x)) := by
        intro rs
        unfold ratesOf
        rw [List.map_map]
        rfl
      rw [hcomp, hcomp]
      unfold lookupRate
      rw [lookup_map_keyed, lookup_map_keyed]
      have hmem : e ∈ firstSeenEmotions l ↔ e ∈ firstSeenEmotions l' := by
        rw [mem_firstSeen, mem_firstSeen]
        constructor
        · rintro ⟨r, hr, he⟩
          exact ⟨r, hperm.subset hr, he⟩
        · rintro ⟨r, hr, he⟩
          exact ⟨r, hperm.symm.subset hr, he⟩
      have hcnt : specCountsKeyed l e = specCountsKeyed l' e := by
        unfold specCountsKeyed
        rw [countKey_perm hperm, countKey_perm hperm, countKey_perm hperm]
      by_cases hm : e ∈ firstSeenEmotions l
      · rw [if_pos hm, if_pos (hmem.mp hm), hcnt]
      · rw [if_neg hm, if_neg fun hc => hm (hmem.mpr hc)]
  · have hall' : ¬l'.all keyValid = true := by
      intro hc
      apply hall
      rw [List.all_eq_true] at hc ⊢
      exact fun x hx => hc x (hperm.subset hx)
    have h1 : emotion_stats l = none := by
      have hx : (emotion_stats l).isSome = false := by
        rw [emotion_stats_isSome]
        exact Bool.eq_false_iff.mpr hall
      exact Option.not_isSome_iff_eq_none.mp (by simp [hx])
    have h2 : emotion_stats l' = none := by
      have hx : (emotion_stats l').isSome = false := by
        rw [emotion_stats_isSome]
        exact Bool.eq_false_iff.mpr hall'
      exact Option.not_isSome_iff_eq_none.mp (by simp [hx])
    constructor
    · unfold get_summary
      rw [if_neg (by simp [hemp]), if_neg (by simp [hemp']), h1, h2]
      rfl
    · intro e
      unfold emotion_success_rates
      rw [h1, h2]

/-- C5 witness: the invariance applied to a concrete two-element list
and its reversal, projected at the emotion `happy`. -/
theorem get_summary_perm_invariant_witness :
    ((get_summary demoResults).map (Option.map summaryTotals) =
      (get_summary demoPermResults).map (Option.map summaryTotals)) ∧
    (emotion_success_rates demoResults).map
        (fun rates => lookupRate rates "happy") =
      (emotion_success_rates demoPermResults).map
        fun rates => lookupRate rates "happy" :=
  ⟨(get_summary_perm_invariant demoResults demoPermResults
      (List.Perm.swap sampleResultFail sampleResultA [])).1,
    (get_summary_perm_invariant demoResults demoPermResults
      (List.Perm.swap sampleResultFail sampleResultA [])).2 "happy"⟩

/-- C10: when every status is one of PASS/FAIL/ERROR the tally never
misses a key and `get_summary` returns normally; `add_result` itself
accepts any status string unvalidated, and on a result with status
`SKIPPED` the tally lookup in `get_summary` raises `KeyError`. -/
theorem add_result_unvalidated_key_error :
    (∀ rs : List BenchmarkResult, (∀ r ∈ rs, statusValid r = true) →
      (get_summary rs).isSome = true) ∧
    add_result [] "happy" "default" 1 "What a great day!" 1
        "basic_emotions" "SKIPPED" (some "What a great day!") none =
      [skippedResult] ∧
    get_summary [skippedResult] = none := by
  refine ⟨?_, by decide, by decide⟩
  intro rs h
  by_cases hemp : rs.isEmpty = true
  · unfold get_summary
    rw [if_pos hemp]
    rfl
  · have hks : (emotion_stats rs).isSome = true := by
      rw [emotion_stats_isSome]
      exact List.all_eq_true.mpr fun r hr => statusValid_keyValid (h r hr)
    unfold get_summary
    rw [if_neg hemp]
    cases hst : emotion_stats rs with
    | none => rw [hst] at hks; exact absurd hks (by simp)
    | some s => rfl

/-- C10 witness: the no-KeyError half applied to the concrete
two-result list of valid statuses. -/
theorem add_result_unvalidated_key_error_witness :
    (get_summary demoResults).isSome = true :=
  add_result_unvalidated_key_error.1 demoResults (by decide)

end EmotionBench
